import Mathlib

/-!
Shallow embedding of the Trust Pooler reference implementation
(`TrustPoolerReferenceImplementation/main.cpp`).

Monetary amounts (C++ `double`) are modelled as `ℚ`; the 0.01 closeness
tolerance of the C++ `Close` predicate is kept.  `std::map<TxId, Risk>`
is modelled as an association list `List (Nat × Risk)` kept in key order;
`insertAssoc` mirrors `operator[]` assignment (insert or replace at the
sorted position) and iteration over a `std::map` is iteration over the
list in stored order.  Division by zero in `ℚ` yields `0` where the C++
`double` division would yield `±inf`/NaN; theorems that depend on a
division carry the corresponding nonzero hypothesis.
-/

namespace TP

/-- `tp::Close` (main.cpp:30-34): two amounts balance within one cent. -/
def Close (a b : ℚ) : Prop := |a - b| < 1 / 100

instance : DecidablePred fun p : ℚ × ℚ => Close p.1 p.2 := by
  unfold Close; infer_instance

instance (a b : ℚ) : Decidable (Close a b) := by
  unfold Close; infer_instance

/-- `tp::Side` (main.cpp:36). -/
inductive Side where
  | Long : Side
  | Short : Side
  | Neither : Side
deriving Repr, DecidableEq

/-- `tp::DefaultTX` (main.cpp:49-64): one transaction record. -/
structure DefaultTX where
  id : Nat
  amount : ℚ
  client_account : String
  pool_account : String
  payout : ℚ
deriving Repr, DecidableEq

/-- Value-initialised `DefaultTX{}`. -/
def DefaultTX.init : DefaultTX :=
  { id := 0, amount := 0, client_account := "", pool_account := "", payout := 0 }

/-- `tp::MutexEvent<DefaultTX>` (main.cpp:80-127), with the inherited
`PoolEvent` fields (main.cpp:67-77) flattened in. -/
structure MutexEvent where
  pool_share : ℚ
  winnings_share : ℚ
  payoff : ℚ
  event : String
  tx : DefaultTX
deriving Repr, DecidableEq

/-- Value-initialised `Risk{}` for the mutex pool. -/
def MutexEvent.init : MutexEvent :=
  { pool_share := 0, winnings_share := 0, payoff := 0, event := "", tx := DefaultTX.init }

/-- `MutexEvent::MutexEvent(const std::string&)` (main.cpp:92). -/
def MutexEvent.ofEvent (e : String) : MutexEvent :=
  { MutexEvent.init with event := e }

/-- `MutexEvent::IsWinner` (main.cpp:101-105). -/
def MutexEvent.IsWinner (r : MutexEvent) (level : String) : Bool :=
  r.event == level

/-- `MutexEvent::WinningAmount` (main.cpp:108-113). -/
def MutexEvent.WinningAmount (r : MutexEvent) (level : String) : ℚ :=
  if level == r.event then r.tx.amount else 0

/-- `MutexEvent::GetLevel` (main.cpp:122-126). -/
def MutexEvent.GetLevel (r : MutexEvent) : String :=
  r.event

/-- `tp::LongShortEvent<DefaultTX>` (main.cpp:130-216), `PoolEvent`
fields flattened in. -/
structure LongShortEvent where
  pool_share : ℚ
  winnings_share : ℚ
  payoff : ℚ
  side : Side
  price : Int
  tx : DefaultTX
  prima_facie_payoff : ℚ
  prima_facie_payout : ℚ
  inverse_distance_to_the_pin : ℚ
  inverse_distance_to_pin_normalised : ℚ
  adjusted_amount : ℚ
deriving Repr, DecidableEq

/-- Value-initialised `Risk{}` for the long-short pool. -/
def LongShortEvent.init : LongShortEvent :=
  { pool_share := 0
    winnings_share := 0
    payoff := 0
    side := Side.Long
    price := 0
    tx := DefaultTX.init
    prima_facie_payoff := 0
    prima_facie_payout := 0
    inverse_distance_to_the_pin := 0
    inverse_distance_to_pin_normalised := 0
    adjusted_amount := 0 }

/-- `LongShortEvent::LongShortEvent(Side, Price)` (main.cpp:150). -/
def LongShortEvent.ofSidePrice (s : Side) (p : Int) : LongShortEvent :=
  { LongShortEvent.init with side := s, price := p }

/-- `LongShortEvent::IsWinner` (main.cpp:159-171): the two sequential
`if` blocks on a single `side` value collapse to a match. -/
def LongShortEvent.IsWinner (r : LongShortEvent) (level : Int) : Bool :=
  match r.side with
  | Side.Long => decide (r.price < level)
  | Side.Short => decide (level < r.price)
  | Side.Neither => false

/-- `LongShortEvent::WinningAmount` (main.cpp:174-186). -/
def LongShortEvent.WinningAmount (r : LongShortEvent) (level : Int) : ℚ :=
  match r.side with
  | Side.Long => if r.price < level then r.tx.amount else 0
  | Side.Short => if level < r.price then r.tx.amount else 0
  | Side.Neither => 0

/-- `LongShortEvent::WinningInverseDistance` (main.cpp:189-201). -/
def LongShortEvent.WinningInverseDistance (r : LongShortEvent) (closing_price : Int) : ℚ :=
  match r.side with
  | Side.Long =>
      if r.price < closing_price then 1 / ((closing_price - r.price : Int) : ℚ) else 1
  | Side.Short =>
      if closing_price < r.price then 1 / ((r.price - closing_price : Int) : ℚ) else 1
  | Side.Neither => 1

/-- `LongShortEvent::GetLevel` (main.cpp:211-215). -/
def LongShortEvent.GetLevel (r : LongShortEvent) : Int :=
  r.price

/-- `std::map` insert-or-assign at the sorted key position, the effect of
`risks[tx] = risk` (main.cpp:252) on the association-list model. -/
def insertAssoc {α : Type} (k : Nat) (v : α) : List (Nat × α) → List (Nat × α)
  | [] => [(k, v)]
  | (k', v') :: rest =>
      if k < k' then (k, v) :: (k', v') :: rest
      else if k = k' then (k, v) :: rest
      else (k', v') :: insertAssoc k v rest

/-- `std::map::at` / `find`, returning `none` where C++ would throw. -/
def lookupAssoc {α : Type} (k : Nat) : List (Nat × α) → Option α
  | [] => none
  | (k', v) :: rest => if k = k' then some v else lookupAssoc k rest

/-- Sorted-set insertion for `std::set<int>` (used by `MakeLevelSet`). -/
def insertSortedInt (x : Int) : List Int → List Int
  | [] => [x]
  | y :: rest =>
      if x < y then x :: y :: rest
      else if x = y then y :: rest
      else y :: insertSortedInt x rest

/-- Build a `std::set<int>` from the iteration in `MakeLevelSet`. -/
def intSetOf (xs : List Int) : List Int :=
  xs.foldl (fun acc x => insertSortedInt x acc) []

/-- Sorted-set insertion for `std::set<std::string>`. -/
def insertSortedString (x : String) : List String → List String
  | [] => [x]
  | y :: rest =>
      if x < y then x :: y :: rest
      else if x = y then y :: rest
      else y :: insertSortedString x rest

/-- Build a `std::set<std::string>` from the iteration in `MakeLevelSet`. -/
def stringSetOf (xs : List String) : List String :=
  xs.foldl (fun acc x => insertSortedString x acc) []

/-- `tp::MutexPool`, instance of the CRTP `Pool` template
(main.cpp:229-365, 367-409): id counter, fee rate, risks map. -/
structure MutexPool where
  tx : Nat
  fees : ℚ
  risks : List (Nat × MutexEvent)
deriving Repr, DecidableEq

/-- A default-constructed `MutexPool` (fees default to 3%, main.cpp:241). -/
def MutexPool.empty : MutexPool :=
  { tx := 0, fees := 3 / 100, risks := [] }

/-- `Pool::PoolAccount` (main.cpp:344-347). -/
def poolAccountAddress : String := "Pool_Account_Address"

/-- `Pool::MakeRisk` (main.cpp:245-254): build the stored risk, assign
`id = tx`, store at key `tx`, post-increment `tx`, return the id. -/
def MutexPool.MakeRisk (p : MutexPool) (event : MutexEvent) (amount : ℚ) (who : String) :
    Nat × MutexPool :=
  let risk : MutexEvent :=
    { event with tx :=
      { event.tx with
        id := p.tx
        amount := amount
        client_account := who
        pool_account := poolAccountAddress } }
  (risk.tx.id, { p with tx := p.tx + 1, risks := insertAssoc p.tx risk p.risks })

/-- `Pool::TotalPool` (main.cpp:304-309). -/
def MutexPool.TotalPool (p : MutexPool) : ℚ :=
  (p.risks.map (fun tr => tr.2.tx.amount)).sum

/-- `Pool::TotalWinningAmount` (main.cpp:312-317). -/
def MutexPool.TotalWinningAmount (p : MutexPool) (level : String) : ℚ :=
  (p.risks.map (fun tr => tr.2.WinningAmount level)).sum

/-- `Pool::Fees` (main.cpp:334-337). -/
def MutexPool.Fees (p : MutexPool) : ℚ :=
  p.TotalPool * p.fees

/-- `Pool::MakeLevelSet` (main.cpp:278-295) for the mutex pool:
`Level = std::string` is not arithmetic, so no fringe levels. -/
def MutexPool.MakeLevelSet (p : MutexPool) : List String :=
  stringSetOf (p.risks.map (fun tr => tr.2.GetLevel))

/-- `MutexPool::MakeWinningRisks` (main.cpp:372-408): pick the winners at
`level` and fill in their settlement fields. -/
def MutexPool.MakeWinningRisks (p : MutexPool) (level : String) :
    List (Nat × MutexEvent) :=
  let total_pool_value := p.TotalPool * (1 - p.fees)
  let total_win_value := p.TotalWinningAmount level
  (p.risks.filter (fun tr => tr.2.IsWinner level)).map (fun tr =>
    (tr.1, { tr.2 with
      pool_share := tr.2.tx.amount / total_pool_value
      winnings_share := tr.2.tx.amount / total_win_value
      payoff := total_pool_value / total_win_value
      tx := { tr.2.tx with payout := tr.2.tx.amount * (total_pool_value / total_win_value) } }))

/-- `Pool::ProFormaReturnHelper` (main.cpp:258-268): register the
hypothetical risk (mutating the pool), settle, and look the id up. -/
def MutexPool.ProFormaReturnHelper (p : MutexPool) (event : MutexEvent) (amount : ℚ)
    (level : String) : MutexEvent × MutexPool :=
  let r := p.MakeRisk event amount "Hypothetical"
  match lookupAssoc r.1 (r.2.MakeWinningRisks level) with
  | some win => (win, r.2)
  | none => (MutexEvent.init, r.2)

/-- `Pool::ProFormaReturn` (main.cpp:270-275): copy the pool, run the
helper on the copy; the original pool is the post-state (const method). -/
def MutexPool.ProFormaReturn (p : MutexPool) (event : MutexEvent) (amount : ℚ)
    (level : String) : MutexEvent × MutexPool :=
  ((p.ProFormaReturnHelper event amount level).1, p)

/-- `Pool::ProFormaPayoffCurve` (main.cpp:356-364): one `ProFormaReturn`
per level of `MakeLevelSet`, recording the payoff.  The method mutates
nothing, so the pool is returned unchanged. -/
def MutexPool.ProFormaPayoffCurve (p : MutexPool) (event : MutexEvent) (amount : ℚ) :
    List (String × ℚ) × MutexPool :=
  ((p.MakeLevelSet).map (fun l => (l, (p.ProFormaReturn event amount l).1.payoff)), p)

/-- `tp::LongShortPool`, instance of the CRTP `Pool` template
(main.cpp:229-365, 412-474). -/
structure LongShortPool where
  tx : Nat
  fees : ℚ
  risks : List (Nat × LongShortEvent)
deriving Repr, DecidableEq

/-- A default-constructed `LongShortPool` (fees default to 3%). -/
def LongShortPool.empty : LongShortPool :=
  { tx := 0, fees := 3 / 100, risks := [] }

/-- `Pool::MakeRisk` (main.cpp:245-254) at the long-short instantiation. -/
def LongShortPool.MakeRisk (p : LongShortPool) (event : LongShortEvent) (amount : ℚ)
    (who : String) : Nat × LongShortPool :=
  let risk : LongShortEvent :=
    { event with tx :=
      { event.tx with
        id := p.tx
        amount := amount
        client_account := who
        pool_account := poolAccountAddress } }
  (risk.tx.id, { p with tx := p.tx + 1, risks := insertAssoc p.tx risk p.risks })

/-- `Pool::TotalPool` (main.cpp:304-309). -/
def LongShortPool.TotalPool (p : LongShortPool) : ℚ :=
  (p.risks.map (fun tr => tr.2.tx.amount)).sum

/-- `Pool::TotalWinningAmount` (main.cpp:312-317). -/
def LongShortPool.TotalWinningAmount (p : LongShortPool) (level : Int) : ℚ :=
  (p.risks.map (fun tr => tr.2.WinningAmount level)).sum

/-- `Pool::Fees` (main.cpp:334-337). -/
def LongShortPool.Fees (p : LongShortPool) : ℚ :=
  p.TotalPool * p.fees

/-- `Pool::MakeLevelSet` (main.cpp:278-295) for the long-short pool:
`Level = int` is arithmetic, so `*levels.begin() - 1` and
`*levels.rbegin() + 1` are inserted.  On an empty risks map the C++
dereferences `begin()` of an empty `std::set` — undefined behavior —
modelled here as `none`. -/
def LongShortPool.MakeLevelSet (p : LongShortPool) : Option (List Int) :=
  let levels := intSetOf (p.risks.map (fun tr => tr.2.GetLevel))
  match levels with
  | [] => none
  | mn :: rest =>
      some (insertSortedInt (mn - 1)
        (insertSortedInt ((mn :: rest).getLastD 0 + 1) (mn :: rest)))

/-- First loop of `LongShortPool::MakeWinningRisks` (main.cpp:430-449):
pick the winners, fill their pass-1 fields. -/
def LongShortPool.pass1 (p : LongShortPool) (level : Int) : List (Nat × LongShortEvent) :=
  let total_pool_value := p.TotalPool * (1 - p.fees)
  let total_win_value := p.TotalWinningAmount level
  (p.risks.filter (fun tr => tr.2.IsWinner level)).map (fun tr =>
    (tr.1, { tr.2 with
      pool_share := tr.2.tx.amount / total_pool_value
      winnings_share := tr.2.tx.amount / total_win_value
      prima_facie_payoff := total_pool_value / total_win_value
      prima_facie_payout := tr.2.tx.amount * (total_pool_value / total_win_value)
      inverse_distance_to_the_pin := tr.2.WinningInverseDistance level }))

/-- The `total_inverse_distance_to_pin` accumulated by the first loop. -/
def LongShortPool.totalInverseDistance (p : LongShortPool) (level : Int) : ℚ :=
  ((p.pass1 level).map (fun tr => tr.2.inverse_distance_to_the_pin)).sum

/-- `LongShortPool::MakeWinningRisks` (main.cpp:416-473): pass 1 selects
winners and accumulates the total inverse distance, pass 2
(main.cpp:452-460) redistributes the winning pool by normalised inverse
distance. -/
def LongShortPool.MakeWinningRisks (p : LongShortPool) (level : Int) :
    List (Nat × LongShortEvent) :=
  let total_win_value := p.TotalWinningAmount level
  let tid := p.totalInverseDistance level
  (p.pass1 level).map (fun tr =>
    let norm := tr.2.inverse_distance_to_the_pin / tid
    let adj := norm * total_win_value
    let pout := adj * tr.2.prima_facie_payoff
    (tr.1, { tr.2 with
      inverse_distance_to_pin_normalised := norm
      adjusted_amount := adj
      payoff := pout / tr.2.tx.amount
      tx := { tr.2.tx with payout := pout } }))

/-- `Pool::ProFormaReturnHelper` (main.cpp:258-268) at the long-short
instantiation. -/
def LongShortPool.ProFormaReturnHelper (p : LongShortPool) (event : LongShortEvent)
    (amount : ℚ) (level : Int) : LongShortEvent × LongShortPool :=
  let r := p.MakeRisk event amount "Hypothetical"
  match lookupAssoc r.1 (r.2.MakeWinningRisks level) with
  | some win => (win, r.2)
  | none => (LongShortEvent.init, r.2)

/-- `Pool::ProFormaReturn` (main.cpp:270-275) at the long-short
instantiation: the helper runs on a copy, the original is unchanged. -/
def LongShortPool.ProFormaReturn (p : LongShortPool) (event : LongShortEvent)
    (amount : ℚ) (level : Int) : LongShortEvent × LongShortPool :=
  ((p.ProFormaReturnHelper event amount level).1, p)

/-- `Pool::ProFormaPayoffCurve` (main.cpp:356-364) at the long-short
instantiation; `none` when `MakeLevelSet` hits its empty-set undefined
behavior. -/
def LongShortPool.ProFormaPayoffCurve (p : LongShortPool) (event : LongShortEvent)
    (amount : ℚ) : Option (List (Int × ℚ)) × LongShortPool :=
  (match p.MakeLevelSet with
   | none => none
   | some levels =>
       some (levels.map (fun l => (l, (p.ProFormaReturn event amount l).1.payoff))), p)

/-- Fold a list of `(event, amount, owner)` registrations into a mutex
pool, one `MakeRisk` per entry. -/
def MutexPool.registerAll (p : MutexPool) : List (MutexEvent × ℚ × String) → MutexPool
  | [] => p
  | (e, a, w) :: rest => ((p.MakeRisk e a w).2).registerAll rest

/-- Fold a list of `(event, amount, owner)` registrations into a
long-short pool, one `MakeRisk` per entry. -/
def LongShortPool.registerAll (p : LongShortPool) :
    List (LongShortEvent × ℚ × String) → LongShortPool
  | [] => p
  | (e, a, w) :: rest => ((p.MakeRisk e a w).2).registerAll rest

/-- The mutex pool built by `main` (main.cpp:481-485): 500 and 2500 on
"default", 10000 and 5000 on "no_default". -/
def mutexScenario : MutexPool :=
  MutexPool.empty.registerAll
    [(MutexEvent.ofEvent "default", 500, "barney"),
     (MutexEvent.ofEvent "default", 2500, "barney"),
     (MutexEvent.ofEvent "no_default", 10000, "arnold"),
     (MutexEvent.ofEvent "no_default", 5000, "arnold")]

/-- The long-short pool built by `main` (main.cpp:495-503). -/
def lsScenario : LongShortPool :=
  LongShortPool.empty.registerAll
    [(LongShortEvent.ofSidePrice Side.Long 50, 500, "barney"),
     (LongShortEvent.ofSidePrice Side.Long 55, 250, "barney"),
     (LongShortEvent.ofSidePrice Side.Long 60, 1000, "barney"),
     (LongShortEvent.ofSidePrice Side.Short 60, 700, "arnold"),
     (LongShortEvent.ofSidePrice Side.Short 55, 900, "arnold"),
     (LongShortEvent.ofSidePrice Side.Short 50, 1000, "arnold"),
     (LongShortEvent.ofSidePrice Side.Short 40, 1500, "arnold")]

/-- A one-stake mutex pool: 100 on category "A".  Settling it at "B"
exercises the zero-winning-amount path. -/
def mutexOneStake : MutexPool :=
  (MutexPool.empty.MakeRisk (MutexEvent.ofEvent "A") 100 "alice").2

/-- A long-short pool whose only winner at closing price 51 carries a
zero amount: Long at 50 with amount 0, Long at 60 with amount 100.  Its
total winning amount at 51 is 0 although a winning stake exists. -/
def lsZeroWinner : LongShortPool :=
  LongShortPool.empty.registerAll
    [(LongShortEvent.ofSidePrice Side.Long 50, 0, "alice"),
     (LongShortEvent.ofSidePrice Side.Long 60, 100, "bob")]

/-- A long-short pool with two winners at closing price 51 whose stake
sizes are very different: Long at 50 (distance 1) with amount 1000, Long
at 45 (distance 6) with amount 10. -/
def lsSkewed : LongShortPool :=
  LongShortPool.empty.registerAll
    [(LongShortEvent.ofSidePrice Side.Long 50, 1000, "alice"),
     (LongShortEvent.ofSidePrice Side.Long 45, 10, "bob")]

/-- A long-short pool with two equal-amount winners at closing price 51:
Long at 50 (distance 1) and Long at 45 (distance 6), both amount 100. -/
def lsEqualAmounts : LongShortPool :=
  LongShortPool.empty.registerAll
    [(LongShortEvent.ofSidePrice Side.Long 50, 100, "alice"),
     (LongShortEvent.ofSidePrice Side.Long 45, 100, "bob")]

/-- The payoff a settlement result assigns to a transaction id (0 when
the id is absent). -/
def payoffAt (res : List (Nat × LongShortEvent)) (k : Nat) : ℚ :=
  match lookupAssoc k res with
  | some r => r.payoff
  | none => 0

/-! ### Helper lemmas -/

lemma mutex_winningAmount_ite (r : MutexEvent) (level : String) :
    r.WinningAmount level = if r.IsWinner level then r.tx.amount else 0 := by
  by_cases h : level = r.event
  · simp [MutexEvent.WinningAmount, MutexEvent.IsWinner, h]
  · simp [MutexEvent.WinningAmount, MutexEvent.IsWinner, h, Ne.symm h]

lemma ls_winningAmount_ite (r : LongShortEvent) (level : Int) :
    r.WinningAmount level = if r.IsWinner level then r.tx.amount else 0 := by
  cases hs : r.side <;>
    simp [LongShortEvent.WinningAmount, LongShortEvent.IsWinner, hs]

/-- Summing stake amounts over the winners equals summing
`WinningAmount` over all risks (mutex pool). -/
lemma mutex_sum_filter (l : List (Nat × MutexEvent)) (level : String) :
    ((l.filter (fun tr => tr.2.IsWinner level)).map (fun tr => tr.2.tx.amount)).sum
      = (l.map (fun tr => tr.2.WinningAmount level)).sum := by
  induction l with
  | nil => simp
  | cons hd tl ih =>
      by_cases h : hd.2.IsWinner level = true <;>
        simp [List.filter_cons, h, mutex_winningAmount_ite, ih]

/-- Summing stake amounts over the winners equals summing
`WinningAmount` over all risks (long-short pool). -/
lemma ls_sum_filter (l : List (Nat × LongShortEvent)) (level : Int) :
    ((l.filter (fun tr => tr.2.IsWinner level)).map (fun tr => tr.2.tx.amount)).sum
      = (l.map (fun tr => tr.2.WinningAmount level)).sum := by
  induction l with
  | nil => simp
  | cons hd tl ih =>
      by_cases h : hd.2.IsWinner level = true <;>
        simp [List.filter_cons, h, ls_winningAmount_ite, ih]

/-- A winner's inverse distance to the pin is strictly positive. -/
lemma ls_invDist_pos (r : LongShortEvent) (level : Int)
    (h : r.IsWinner level = true) : 0 < r.WinningInverseDistance level := by
  cases hs : r.side with
  | Long =>
      have hp : r.price < level := by
        simpa [LongShortEvent.IsWinner, hs] using h
      have : (0 : ℚ) < ((level - r.price : Int) : ℚ) := by
        exact_mod_cast Int.sub_pos.mpr hp
      simp [LongShortEvent.WinningInverseDistance, hs, hp, one_div, inv_pos, this]
  | Short =>
      have hp : level < r.price := by
        simpa [LongShortEvent.IsWinner, hs] using h
      have : (0 : ℚ) < ((r.price - level : Int) : ℚ) := by
        exact_mod_cast Int.sub_pos.mpr hp
      simp [LongShortEvent.WinningInverseDistance, hs, hp, one_div, inv_pos, this]
  | Neither =>
      simp [LongShortEvent.IsWinner, hs] at h

/-- The payouts produced by the mutex settlement sum to the fee-adjusted
pool value when the winning amount is nonzero. -/
lemma mutex_payout_sum (p : MutexPool) (level : String)
    (hw : p.TotalWinningAmount level ≠ 0) :
    ((p.MakeWinningRisks level).map (fun tr => tr.2.tx.payout)).sum
      = p.TotalPool * (1 - p.fees) := by
  have hmap : ((p.MakeWinningRisks level).map (fun tr => tr.2.tx.payout)).sum
      = ((p.risks.filter (fun tr => tr.2.IsWinner level)).map
          (fun tr => tr.2.tx.amount *
            (p.TotalPool * (1 - p.fees) / p.TotalWinningAmount level))).sum := by
    simp [MutexPool.MakeWinningRisks, List.map_map, Function.comp_def]
  rw [hmap, List.sum_map_mul_right, mutex_sum_filter]
  have hW : (p.risks.map (fun tr => tr.2.WinningAmount level)).sum
      = p.TotalWinningAmount level := rfl
  rw [hW]
  field_simp

/-- C1: for every mutex-pool ledger with at least one stake and any
closing category with nonzero total winning amount, the settled payouts
plus fees balance the total pool within the 0.01 tolerance. -/
theorem mutex_conservation (p : MutexPool) (level : String)
    (hne : p.risks ≠ []) (hw : p.TotalWinningAmount level ≠ 0) :
    Close (((p.MakeWinningRisks level).map (fun tr => tr.2.tx.payout)).sum + p.Fees)
      p.TotalPool := by
  rw [Close, mutex_payout_sum p level hw, MutexPool.Fees]
  have : p.TotalPool * (1 - p.fees) + p.TotalPool * p.fees - p.TotalPool = 0 := by ring
  rw [this]
  norm_num

/-- Witness for C1 at the concrete pool of `main`. -/
theorem mutex_conservation_witness :
    (mutexScenario.risks ≠ [] ∧ mutexScenario.TotalWinningAmount "default" ≠ 0)
    ∧ Close (((mutexScenario.MakeWinningRisks "default").map
        (fun tr => tr.2.tx.payout)).sum + mutexScenario.Fees) mutexScenario.TotalPool := by
  have h1 : mutexScenario.risks ≠ [] := by decide
  have h2 : mutexScenario.TotalWinningAmount "default" ≠ 0 := by
    have hne : ("default" : String) ≠ "no_default" := by decide
    norm_num [mutexScenario, MutexPool.registerAll, MutexPool.MakeRisk, MutexPool.empty,
      insertAssoc, MutexPool.TotalWinningAmount, MutexEvent.WinningAmount,
      MutexEvent.ofEvent, MutexEvent.init, DefaultTX.init, poolAccountAddress, hne]
  exact ⟨⟨h1, h2⟩, mutex_conservation mutexScenario "default" h1 h2⟩

/-- The accumulated `total_inverse_distance_to_pin` is the sum of the
winners' inverse distances. -/
lemma ls_tid_eq (p : LongShortPool) (level : Int) :
    p.totalInverseDistance level
      = ((p.risks.filter (fun tr => tr.2.IsWinner level)).map
          (fun tr => tr.2.WinningInverseDistance level)).sum := by
  simp [LongShortPool.totalInverseDistance, LongShortPool.pass1, List.map_map,
    Function.comp_def]

/-- With at least one winner the total inverse distance is positive. -/
lemma ls_tid_pos (p : LongShortPool) (level : Int)
    (h : p.risks.any (fun tr => tr.2.IsWinner level) = true) :
    0 < p.totalInverseDistance level := by
  rw [ls_tid_eq]
  rcases List.any_eq_true.mp h with ⟨tr, htr, hwin⟩
  have hmemf : tr ∈ p.risks.filter (fun tr => tr.2.IsWinner level) :=
    List.mem_filter.mpr ⟨htr, hwin⟩
  apply List.sum_pos
  · intro x hx
    rcases List.mem_map.mp hx with ⟨a, ha, rfl⟩
    exact ls_invDist_pos a.2 level (List.mem_filter.mp ha).2
  · intro hnil
    have hmem := List.mem_map_of_mem (fun tr => tr.2.WinningInverseDistance level) hmemf
    rw [hnil] at hmem
    exact absurd hmem (List.not_mem_nil _)

/-- The prima-facie payouts of the directional settlement sum to the
fee-adjusted pool value when the winning amount is nonzero. -/
lemma ls_pf_sum (p : LongShortPool) (level : Int)
    (hw : p.TotalWinningAmount level ≠ 0) :
    ((p.MakeWinningRisks level).map (fun tr => tr.2.prima_facie_payout)).sum
      = p.TotalPool * (1 - p.fees) := by
  have hmap : ((p.MakeWinningRisks level).map (fun tr => tr.2.prima_facie_payout)).sum
      = ((p.risks.filter (fun tr => tr.2.IsWinner level)).map
          (fun tr => tr.2.tx.amount *
            (p.TotalPool * (1 - p.fees) / p.TotalWinningAmount level))).sum := by
    simp [LongShortPool.MakeWinningRisks, LongShortPool.pass1, List.map_map,
      Function.comp_def]
  rw [hmap, List.sum_map_mul_right, ls_sum_filter]
  have hW : (p.risks.map (fun tr => tr.2.WinningAmount level)).sum
      = p.TotalWinningAmount level := rfl
  rw [hW]
  field_simp

/-- The reweighted payouts of the directional settlement also sum to the
fee-adjusted pool value. -/
lemma ls_payout_sum (p : LongShortPool) (level : Int)
    (hw : p.TotalWinningAmount level ≠ 0)
    (htid : p.totalInverseDistance level ≠ 0) :
    ((p.MakeWinningRisks level).map (fun tr => tr.2.tx.payout)).sum
      = p.TotalPool * (1 - p.fees) := by
  have hmap : ((p.MakeWinningRisks level).map (fun tr => tr.2.tx.payout)).sum
      = ((p.risks.filter (fun tr => tr.2.IsWinner level)).map
          (fun tr => tr.2.WinningInverseDistance level / p.totalInverseDistance level
              * p.TotalWinningAmount level
              * (p.TotalPool * (1 - p.fees) / p.TotalWinningAmount level))).sum := by
    simp [LongShortPool.MakeWinningRisks, LongShortPool.pass1, List.map_map,
      Function.comp_def]
  rw [hmap]
  have hcong : (p.risks.filter (fun tr => tr.2.IsWinner level)).map
        (fun tr => tr.2.WinningInverseDistance level / p.totalInverseDistance level
            * p.TotalWinningAmount level
            * (p.TotalPool * (1 - p.fees) / p.TotalWinningAmount level))
      = (p.risks.filter (fun tr => tr.2.IsWinner level)).map
        (fun tr => tr.2.WinningInverseDistance level *
            (p.TotalPool * (1 - p.fees) / p.totalInverseDistance level)) := by
    apply List.map_congr_left
    intro a _
    field_simp
    ring
  rw [hcong, List.sum_map_mul_right, ← ls_tid_eq]
  field_simp

/-- C2 (amended): directional conservation, for a closing price with at
least one winning stake and nonzero total winning amount. -/
theorem ls_conservation (p : LongShortPool) (level : Int)
    (hwin : p.risks.any (fun tr => tr.2.IsWinner level) = true)
    (hw : p.TotalWinningAmount level ≠ 0) :
    Close (((p.MakeWinningRisks level).map (fun tr => tr.2.prima_facie_payout)).sum
        + p.Fees) p.TotalPool
    ∧ Close (((p.MakeWinningRisks level).map (fun tr => tr.2.prima_facie_payout)).sum)
        (((p.MakeWinningRisks level).map (fun tr => tr.2.tx.payout)).sum) := by
  have htid := (ls_tid_pos p level hwin).ne'
  constructor
  · rw [Close, ls_pf_sum p level hw, LongShortPool.Fees]
    have hz : p.TotalPool * (1 - p.fees) + p.TotalPool * p.fees - p.TotalPool = 0 := by
      ring
    rw [hz]
    norm_num
  · rw [Close, ls_pf_sum p level hw, ls_payout_sum p level hw htid, sub_self, abs_zero]
    norm_num

/-- Witness for the amended C2 at the concrete pool of `main`, closing
price 56. -/
theorem ls_conservation_witness :
    (lsScenario.risks.any (fun tr => tr.2.IsWinner 56) = true
      ∧ lsScenario.TotalWinningAmount 56 ≠ 0)
    ∧ (Close (((lsScenario.MakeWinningRisks 56).map
          (fun tr => tr.2.prima_facie_payout)).sum + lsScenario.Fees) lsScenario.TotalPool
       ∧ Close (((lsScenario.MakeWinningRisks 56).map
          (fun tr => tr.2.prima_facie_payout)).sum)
          (((lsScenario.MakeWinningRisks 56).map (fun tr => tr.2.tx.payout)).sum)) := by
  have h1 : lsScenario.risks.any (fun tr => tr.2.IsWinner 56) = true := by decide
  have h2 : lsScenario.TotalWinningAmount 56 ≠ 0 := by
    norm_num [lsScenario, LongShortPool.registerAll, LongShortPool.MakeRisk,
      LongShortPool.empty, insertAssoc, LongShortPool.TotalWinningAmount,
      LongShortEvent.WinningAmount, LongShortEvent.ofSidePrice, LongShortEvent.init,
      DefaultTX.init, poolAccountAddress]
  exact ⟨⟨h1, h2⟩, ls_conservation lsScenario 56 h1 h2⟩

/-- C2 as literally stated is false: in `lsZeroWinner` the only winner at
closing price 51 has stake amount 0, so a winning stake exists but the
conservation checks fail. -/
theorem ls_conservation_cex :
    (lsZeroWinner.risks.any (fun tr => tr.2.IsWinner 51) = true)
    ∧ ¬ (Close (((lsZeroWinner.MakeWinningRisks 51).map
          (fun tr => tr.2.prima_facie_payout)).sum + lsZeroWinner.Fees)
          lsZeroWinner.TotalPool
        ∧ Close (((lsZeroWinner.MakeWinningRisks 51).map
          (fun tr => tr.2.prima_facie_payout)).sum)
          (((lsZeroWinner.MakeWinningRisks 51).map (fun tr => tr.2.tx.payout)).sum)) := by
  refine ⟨by decide, fun h => ?_⟩
  have hn : ¬ Close (((lsZeroWinner.MakeWinningRisks 51).map
      (fun tr => tr.2.prima_facie_payout)).sum + lsZeroWinner.Fees)
      lsZeroWinner.TotalPool := by
    norm_num [Close, lsZeroWinner, LongShortPool.registerAll, LongShortPool.MakeRisk,
      LongShortPool.empty, insertAssoc, LongShortPool.MakeWinningRisks,
      LongShortPool.pass1, LongShortPool.totalInverseDistance,
      LongShortPool.TotalWinningAmount, LongShortPool.TotalPool, LongShortPool.Fees,
      LongShortEvent.WinningAmount, LongShortEvent.IsWinner,
      LongShortEvent.WinningInverseDistance, LongShortEvent.ofSidePrice,
      LongShortEvent.init, DefaultTX.init, poolAccountAddress]
  exact hn h.1

/-- C5: every winner returned by the mutex settlement carries the common
payoff `totalPool * (1 - feeRate) / totalWinningAmount(level)` and a
payout of its amount times that payoff. -/
theorem mutex_flat_odds (p : MutexPool) (level : String) (t : Nat) (r : MutexEvent)
    (h : (t, r) ∈ p.MakeWinningRisks level) :
    r.payoff = p.TotalPool * (1 - p.fees) / p.TotalWinningAmount level
    ∧ r.tx.payout = r.tx.amount * r.payoff := by
  rcases List.mem_map.mp h with ⟨tr, _, heq⟩
  obtain ⟨ht, hr⟩ := Prod.ext_iff.mp heq.symm
  subst hr
  exact ⟨rfl, rfl⟩

/-- The first winner of the mutex scenario settlement, fully settled. -/
def mutexWinner0 : MutexEvent :=
  { pool_share := 25 / 873
    winnings_share := 1 / 6
    payoff := 291 / 50
    event := "default"
    tx := { id := 0
            amount := 500
            client_account := "barney"
            pool_account := "Pool_Account_Address"
            payout := 2910 } }

/-- Witness for C5 at the concrete pool of `main`. -/
theorem mutex_flat_odds_witness :
    ((0, mutexWinner0) ∈ mutexScenario.MakeWinningRisks "default")
    ∧ (mutexWinner0.payoff
        = mutexScenario.TotalPool * (1 - mutexScenario.fees)
          / mutexScenario.TotalWinningAmount "default"
      ∧ mutexWinner0.tx.payout = mutexWinner0.tx.amount * mutexWinner0.payoff) := by
  have hmem : (0, mutexWinner0) ∈ mutexScenario.MakeWinningRisks "default" := by
    have hne : ("default" : String) ≠ "no_default" := by decide
    norm_num [mutexScenario, MutexPool.registerAll, MutexPool.MakeRisk, MutexPool.empty,
      insertAssoc, MutexPool.MakeWinningRisks, MutexPool.TotalPool,
      MutexPool.TotalWinningAmount, MutexEvent.WinningAmount, MutexEvent.IsWinner,
      MutexEvent.ofEvent, MutexEvent.init, DefaultTX.init, poolAccountAddress, hne,
      mutexWinner0]
  exact ⟨hmem, mutex_flat_odds mutexScenario "default" 0 mutexWinner0 hmem⟩

/-- A winner's inverse distance is the reciprocal of its absolute
distance to the closing price. -/
lemma ls_winner_invDist_abs (r : LongShortEvent) (level : Int)
    (h : r.IsWinner level = true) :
    r.WinningInverseDistance level = 1 / ((|level - r.price| : Int) : ℚ) := by
  cases hs : r.side with
  | Long =>
      have hp : r.price < level := by
        simpa [LongShortEvent.IsWinner, hs] using h
      have habs : |level - r.price| = level - r.price := abs_of_pos (by omega)
      simp [LongShortEvent.WinningInverseDistance, hs, hp, habs]
  | Short =>
      have hp : level < r.price := by
        simpa [LongShortEvent.IsWinner, hs] using h
      have habs : |level - r.price| = r.price - level := by
        rw [abs_sub_comm]
        exact abs_of_pos (by omega)
      simp [LongShortEvent.WinningInverseDistance, hs, hp, habs]
  | Neither =>
      simp [LongShortEvent.IsWinner, hs] at h

/-- A winner is at a strictly positive distance from the closing price. -/
lemma ls_winner_dist_pos (r : LongShortEvent) (level : Int)
    (h : r.IsWinner level = true) : 0 < |level - r.price| := by
  cases hs : r.side with
  | Long =>
      have hp : r.price < level := by
        simpa [LongShortEvent.IsWinner, hs] using h
      exact abs_pos.mpr (by omega)
  | Short =>
      have hp : level < r.price := by
        simpa [LongShortEvent.IsWinner, hs] using h
      exact abs_pos.mpr (by omega)
  | Neither =>
      simp [LongShortEvent.IsWinner, hs] at h

/-- Unpacking membership in the directional settlement result: the
settled risk comes from a winning registered risk and its payoff is the
two-pass formula. -/
lemma ls_mem_winning (p : LongShortPool) (level : Int) (t : Nat) (r : LongShortEvent)
    (h : (t, r) ∈ p.MakeWinningRisks level) :
    ∃ a, (t, a) ∈ p.risks ∧ a.IsWinner level = true
      ∧ r.side = a.side ∧ r.price = a.price ∧ r.tx.amount = a.tx.amount
      ∧ r.payoff = a.WinningInverseDistance level / p.totalInverseDistance level
          * p.TotalWinningAmount level
          * (p.TotalPool * (1 - p.fees) / p.TotalWinningAmount level) / a.tx.amount := by
  simp only [LongShortPool.MakeWinningRisks, LongShortPool.pass1, List.map_map] at h
  rcases List.mem_map.mp h with ⟨tr0, htr0, heq⟩
  obtain ⟨hmem, hwin⟩ := List.mem_filter.mp htr0
  obtain ⟨ht, hr⟩ := Prod.ext_iff.mp heq.symm
  subst hr
  subst ht
  exact ⟨tr0.2, hmem, hwin, rfl, rfl, rfl, rfl⟩

/-- C4 (amended): among winners of one directional settlement carrying
equal positive stake amounts, in a pool with nonnegative amounts and fee
rate at most 1, a strictly smaller distance to the closing price yields
a payoff at least as large. -/
theorem ls_distance_monotonic (p : LongShortPool) (level : Int)
    (t1 t2 : Nat) (r1 r2 : LongShortEvent)
    (hamt : ∀ tr ∈ p.risks, 0 ≤ tr.2.tx.amount)
    (hfee : p.fees ≤ 1)
    (h1 : (t1, r1) ∈ p.MakeWinningRisks level)
    (h2 : (t2, r2) ∈ p.MakeWinningRisks level)
    (heqa : r1.tx.amount = r2.tx.amount)
    (hpos : 0 < r1.tx.amount)
    (hd : |level - r1.price| < |level - r2.price|) :
    r2.payoff ≤ r1.payoff := by
  rcases ls_mem_winning p level t1 r1 h1 with ⟨a1, ha1m, ha1w, _, hp1, hq1, hf1⟩
  rcases ls_mem_winning p level t2 r2 h2 with ⟨a2, ha2m, ha2w, _, hp2, hq2, hf2⟩
  have hany : p.risks.any (fun tr => tr.2.IsWinner level) = true :=
    List.any_eq_true.mpr ⟨(t1, a1), ha1m, ha1w⟩
  have htid : 0 < p.totalInverseDistance level := ls_tid_pos p level hany
  have hTP : 0 ≤ p.TotalPool := by
    apply List.sum_nonneg
    intro x hx
    rcases List.mem_map.mp hx with ⟨tr, htr, rfl⟩
    exact hamt tr htr
  have hTW : 0 ≤ p.TotalWinningAmount level := by
    apply List.sum_nonneg
    intro x hx
    rcases List.mem_map.mp hx with ⟨tr, htr, rfl⟩
    rw [ls_winningAmount_ite]
    by_cases hb : tr.2.IsWinner level = true
    · simpa [hb] using hamt tr htr
    · simp [hb]
  have htpv : 0 ≤ p.TotalPool * (1 - p.fees) := mul_nonneg hTP (by linarith)
  have ha1pos : 0 < a1.tx.amount := by rw [← hq1]; exact hpos
  have ha2amt : a2.tx.amount = a1.tx.amount := by rw [← hq2, ← heqa, hq1]
  rw [hp1] at hd
  rw [hp2] at hd
  have hd1posZ : 0 < |level - a1.price| := ls_winner_dist_pos a1 level ha1w
  have hd1pos : (0 : ℚ) < ((|level - a1.price| : Int) : ℚ) := by exact_mod_cast hd1posZ
  have hdle : ((|level - a1.price| : Int) : ℚ) ≤ ((|level - a2.price| : Int) : ℚ) := by
    exact_mod_cast hd.le
  have hinvle : a2.WinningInverseDistance level ≤ a1.WinningInverseDistance level := by
    rw [ls_winner_invDist_abs a1 level ha1w, ls_winner_invDist_abs a2 level ha2w]
    exact one_div_le_one_div_of_le hd1pos hdle
  have h1f : r1.payoff = a1.WinningInverseDistance level
      * (p.TotalWinningAmount level
          * (p.TotalPool * (1 - p.fees) / p.TotalWinningAmount level)
          / (p.totalInverseDistance level * a1.tx.amount)) := by
    rw [hf1]; ring
  have h2f : r2.payoff = a2.WinningInverseDistance level
      * (p.TotalWinningAmount level
          * (p.TotalPool * (1 - p.fees) / p.TotalWinningAmount level)
          / (p.totalInverseDistance level * a1.tx.amount)) := by
    rw [hf2, ha2amt]; ring
  have hC : 0 ≤ p.TotalWinningAmount level
      * (p.TotalPool * (1 - p.fees) / p.TotalWinningAmount level)
      / (p.totalInverseDistance level * a1.tx.amount) :=
    div_nonneg (mul_nonneg hTW (div_nonneg htpv hTW)) (mul_pos htid ha1pos).le
  rw [h1f, h2f]
  exact mul_le_mul_of_nonneg_right hinvle hC

/-- C4 as literally stated is false: in `lsSkewed` at closing price 51,
the winner at strike 50 (distance 1, amount 1000) has a strictly smaller
payoff than the winner at strike 45 (distance 6, amount 10). -/
theorem ls_distance_monotonic_cex :
    (lsSkewed.MakeWinningRisks 51).map (fun tr => (tr.1, tr.2.price, tr.2.payoff))
      = [(0, 50, 29391 / 35000), (1, 45, 9797 / 700)]
    ∧ |(51 : Int) - 50| < |(51 : Int) - 45|
    ∧ ¬ ((9797 : ℚ) / 700 ≤ 29391 / 35000) := by
  refine ⟨?_, by decide, by norm_num⟩
  norm_num [lsSkewed, LongShortPool.registerAll, LongShortPool.MakeRisk,
    LongShortPool.empty, insertAssoc, LongShortPool.MakeWinningRisks,
    LongShortPool.pass1, LongShortPool.totalInverseDistance,
    LongShortPool.TotalWinningAmount, LongShortPool.TotalPool,
    LongShortEvent.WinningAmount, LongShortEvent.IsWinner,
    LongShortEvent.WinningInverseDistance, LongShortEvent.ofSidePrice,
    LongShortEvent.init, DefaultTX.init, poolAccountAddress]

/-- The winner at strike 50 of the equal-amount pool, fully settled. -/
def lsEqWinner0 : LongShortEvent :=
  { pool_share := 50 / 97
    winnings_share := 1 / 2
    payoff := 291 / 175
    side := Side.Long
    price := 50
    tx := { id := 0
            amount := 100
            client_account := "alice"
            pool_account := "Pool_Account_Address"
            payout := 1164 / 7 }
    prima_facie_payoff := 97 / 100
    prima_facie_payout := 97
    inverse_distance_to_the_pin := 1
    inverse_distance_to_pin_normalised := 6 / 7
    adjusted_amount := 1200 / 7 }

/-- The winner at strike 45 of the equal-amount pool, fully settled. -/
def lsEqWinner1 : LongShortEvent :=
  { pool_share := 50 / 97
    winnings_share := 1 / 2
    payoff := 97 / 350
    side := Side.Long
    price := 45
    tx := { id := 1
            amount := 100
            client_account := "bob"
            pool_account := "Pool_Account_Address"
            payout := 194 / 7 }
    prima_facie_payoff := 97 / 100
    prima_facie_payout := 97
    inverse_distance_to_the_pin := 1 / 6
    inverse_distance_to_pin_normalised := 1 / 7
    adjusted_amount := 200 / 7 }

/-- Witness for the amended C4 at the equal-amount pool, closing price
51. -/
theorem ls_distance_monotonic_witness :
    ((∀ tr ∈ lsEqualAmounts.risks, 0 ≤ tr.2.tx.amount)
      ∧ lsEqualAmounts.fees ≤ 1
      ∧ (0, lsEqWinner0) ∈ lsEqualAmounts.MakeWinningRisks 51
      ∧ (1, lsEqWinner1) ∈ lsEqualAmounts.MakeWinningRisks 51
      ∧ lsEqWinner0.tx.amount = lsEqWinner1.tx.amount
      ∧ 0 < lsEqWinner0.tx.amount
      ∧ |(51 : Int) - lsEqWinner0.price| < |(51 : Int) - lsEqWinner1.price|)
    ∧ lsEqWinner1.payoff ≤ lsEqWinner0.payoff := by
  have hamt : ∀ tr ∈ lsEqualAmounts.risks, 0 ≤ tr.2.tx.amount := by
    intro tr htr
    fin_cases htr <;> norm_num [lsEqWinner0, lsEqWinner1]
  have hfee : lsEqualAmounts.fees ≤ 1 := by norm_num [lsEqualAmounts,
    LongShortPool.registerAll, LongShortPool.MakeRisk, LongShortPool.empty]
  have hlist : lsEqualAmounts.MakeWinningRisks 51 = [(0, lsEqWinner0), (1, lsEqWinner1)] := by
    norm_num [lsEqualAmounts, LongShortPool.registerAll, LongShortPool.MakeRisk,
      LongShortPool.empty, insertAssoc, LongShortPool.MakeWinningRisks,
      LongShortPool.pass1, LongShortPool.totalInverseDistance,
      LongShortPool.TotalWinningAmount, LongShortPool.TotalPool,
      LongShortEvent.WinningAmount, LongShortEvent.IsWinner,
      LongShortEvent.WinningInverseDistance, LongShortEvent.ofSidePrice,
      LongShortEvent.init, DefaultTX.init, poolAccountAddress,
      lsEqWinner0, lsEqWinner1]
  have hm0 : (0, lsEqWinner0) ∈ lsEqualAmounts.MakeWinningRisks 51 := by
    rw [hlist]; exact List.mem_cons_self _ _
  have hm1 : (1, lsEqWinner1) ∈ lsEqualAmounts.MakeWinningRisks 51 := by
    rw [hlist]; exact List.mem_cons_of_mem _ (List.mem_cons_self _ _)
  have heqa : lsEqWinner0.tx.amount = lsEqWinner1.tx.amount := rfl
  have hpos : 0 < lsEqWinner0.tx.amount := by norm_num [lsEqWinner0]
  have hd : |(51 : Int) - lsEqWinner0.price| < |(51 : Int) - lsEqWinner1.price| := by decide
  exact ⟨⟨hamt, hfee, hm0, hm1, heqa, hpos, hd⟩,
    ls_distance_monotonic lsEqualAmounts 51 0 1 lsEqWinner0 lsEqWinner1
      hamt hfee hm0 hm1 heqa hpos hd⟩

/-- C3: on a one-stake pool settled at a level with zero winning
amount, the code performs no error signalling at all: it returns an
ordinary (empty) winners map after dividing by the zero winning amount
unconditionally (main.cpp:377-398 has no `NoWinningStake` path). -/
theorem no_winning_stake_unchecked :
    mutexOneStake.TotalWinningAmount "B" = 0
    ∧ mutexOneStake.MakeWinningRisks "B" = [] := by
  have hne : ("B" : String) ≠ "A" := by decide
  constructor
  · norm_num [mutexOneStake, MutexPool.MakeRisk, MutexPool.empty, insertAssoc,
      MutexPool.TotalWinningAmount, MutexEvent.WinningAmount, MutexEvent.ofEvent,
      MutexEvent.init, DefaultTX.init, poolAccountAddress, hne]
  · decide

/-- C6: pro-forma valuation (`ProFormaReturn`) and the payoff curve
(`ProFormaPayoffCurve`) leave the original pool unchanged — total pool,
every total winning amount, the id counter and the stored risks are all
equal before and after, for both pool kinds. -/
theorem proforma_non_mutation :
    ∀ (mp : MutexPool) (me : MutexEvent) (ma : ℚ) (ml : String)
      (lp : LongShortPool) (ev : LongShortEvent) (la : ℚ) (ll : Int),
      ((mp.ProFormaReturn me ma ml).2.TotalPool = mp.TotalPool
        ∧ (∀ lvl, (mp.ProFormaReturn me ma ml).2.TotalWinningAmount lvl
            = mp.TotalWinningAmount lvl)
        ∧ (mp.ProFormaReturn me ma ml).2.tx = mp.tx
        ∧ (mp.ProFormaReturn me ma ml).2.risks = mp.risks)
      ∧ ((mp.ProFormaPayoffCurve me ma).2.TotalPool = mp.TotalPool
        ∧ (∀ lvl, (mp.ProFormaPayoffCurve me ma).2.TotalWinningAmount lvl
            = mp.TotalWinningAmount lvl)
        ∧ (mp.ProFormaPayoffCurve me ma).2.tx = mp.tx
        ∧ (mp.ProFormaPayoffCurve me ma).2.risks = mp.risks)
      ∧ ((lp.ProFormaReturn ev la ll).2.TotalPool = lp.TotalPool
        ∧ (∀ lvl, (lp.ProFormaReturn ev la ll).2.TotalWinningAmount lvl
            = lp.TotalWinningAmount lvl)
        ∧ (lp.ProFormaReturn ev la ll).2.tx = lp.tx
        ∧ (lp.ProFormaReturn ev la ll).2.risks = lp.risks)
      ∧ ((lp.ProFormaPayoffCurve ev la).2.TotalPool = lp.TotalPool
        ∧ (∀ lvl, (lp.ProFormaPayoffCurve ev la).2.TotalWinningAmount lvl
            = lp.TotalWinningAmount lvl)
        ∧ (lp.ProFormaPayoffCurve ev la).2.tx = lp.tx
        ∧ (lp.ProFormaPayoffCurve ev la).2.risks = lp.risks) := by
  intro mp me ma ml lp ev la ll
  exact ⟨⟨rfl, fun _ => rfl, rfl, rfl⟩, ⟨rfl, fun _ => rfl, rfl, rfl⟩,
    ⟨rfl, fun _ => rfl, rfl, rfl⟩, ⟨rfl, fun _ => rfl, rfl, rfl⟩⟩

/-- C7: on the empty long-short pool, `MakeLevelSet` dereferences
`begin()` of an empty `std::set` (main.cpp:287) — undefined behavior,
modelled as `none` — instead of returning the empty set. -/
theorem level_set_empty_ub :
    LongShortPool.empty.risks = [] ∧ LongShortPool.empty.MakeLevelSet = none :=
  ⟨rfl, rfl⟩

/-- C8: `MakeRisk` performs no amount validation (main.cpp:245-254): a
negative stake is accepted, stored, and the id counter advances. -/
theorem make_risk_accepts_negative :
    (MutexPool.empty.MakeRisk (MutexEvent.ofEvent "default") (-5) "alice").1 = 0
    ∧ (MutexPool.empty.MakeRisk (MutexEvent.ofEvent "default") (-5) "alice").2.tx = 1
    ∧ (MutexPool.empty.MakeRisk
        (MutexEvent.ofEvent "default") (-5) "alice").2.risks.length = 1
    ∧ (lookupAssoc 0 (MutexPool.empty.MakeRisk
        (MutexEvent.ofEvent "default") (-5) "alice").2.risks).map (fun r => r.tx.amount)
      = some (-5) :=
  ⟨rfl, rfl, rfl, rfl⟩

/-- Inserting a key above every existing key appends. -/
lemma insertAssoc_append {α : Type} (k : Nat) (v : α) (l : List (Nat × α))
    (h : ∀ k' ∈ l.map Prod.fst, k' < k) :
    insertAssoc k v l = l ++ [(k, v)] := by
  induction l with
  | nil => rfl
  | cons hd tl ih =>
      obtain ⟨k', v'⟩ := hd
      have hk : k' < k := h k' (by simp)
      simp only [insertAssoc, if_neg (by omega : ¬ k < k'), if_neg (by omega : ¬ k = k'),
        List.cons_append, List.cons.injEq, true_and]
      exact ih (fun k2 hk2 => h k2 (by simp [hk2]))

/-- Looking up the key just inserted returns the inserted value. -/
lemma lookupAssoc_insert {α : Type} (k : Nat) (v : α) (l : List (Nat × α)) :
    lookupAssoc k (insertAssoc k v l) = some v := by
  induction l with
  | nil => simp [insertAssoc, lookupAssoc]
  | cons hd tl ih =>
      obtain ⟨k', v'⟩ := hd
      by_cases h1 : k < k'
      · simp [insertAssoc, h1, lookupAssoc]
      · by_cases h2 : k = k'
        · simp [insertAssoc, h1, h2, lookupAssoc]
        · simp [insertAssoc, h1, h2, lookupAssoc, ih]

/-- All keys of a mutex pool sit below its id counter. -/
def MutexPool.KeysBelow (p : MutexPool) : Prop :=
  ∀ k ∈ p.risks.map Prod.fst, k < p.tx

/-- All keys of a long-short pool sit below its id counter. -/
def LongShortPool.KeysBelow (p : LongShortPool) : Prop :=
  ∀ k ∈ p.risks.map Prod.fst, k < p.tx

/-- The keys after inserting above every existing key. -/
lemma insertAssoc_keys {α : Type} (k : Nat) (v : α) (l : List (Nat × α))
    (h : ∀ k' ∈ l.map Prod.fst, k' < k) :
    (insertAssoc k v l).map Prod.fst = l.map Prod.fst ++ [k] := by
  rw [insertAssoc_append k v l h]
  simp

lemma mutex_makeRisk_step (p : MutexPool) (e : MutexEvent) (a : ℚ) (w : String)
    (h : p.KeysBelow) :
    (p.MakeRisk e a w).2.KeysBelow
    ∧ (p.MakeRisk e a w).2.risks.map Prod.fst = p.risks.map Prod.fst ++ [p.tx]
    ∧ (p.MakeRisk e a w).2.tx = p.tx + 1 := by
  have hkeys : (p.MakeRisk e a w).2.risks.map Prod.fst
      = p.risks.map Prod.fst ++ [p.tx] := by
    simp only [MutexPool.MakeRisk]
    exact insertAssoc_keys p.tx _ p.risks h
  refine ⟨?_, hkeys, rfl⟩
  intro k hk
  rw [hkeys] at hk
  simp only [List.mem_append, List.mem_singleton] at hk
  show k < p.tx + 1
  rcases hk with hk | hk
  · exact Nat.lt_succ_of_lt (h k hk)
  · omega

lemma ls_makeRisk_step (p : LongShortPool) (e : LongShortEvent) (a : ℚ) (w : String)
    (h : p.KeysBelow) :
    (p.MakeRisk e a w).2.KeysBelow
    ∧ (p.MakeRisk e a w).2.risks.map Prod.fst = p.risks.map Prod.fst ++ [p.tx]
    ∧ (p.MakeRisk e a w).2.tx = p.tx + 1 := by
  have hkeys : (p.MakeRisk e a w).2.risks.map Prod.fst
      = p.risks.map Prod.fst ++ [p.tx] := by
    simp only [LongShortPool.MakeRisk]
    exact insertAssoc_keys p.tx _ p.risks h
  refine ⟨?_, hkeys, rfl⟩
  intro k hk
  rw [hkeys] at hk
  simp only [List.mem_append, List.mem_singleton] at hk
  show k < p.tx + 1
  rcases hk with hk | hk
  · exact Nat.lt_succ_of_lt (h k hk)
  · omega

lemma mutex_registerAll_spec (xs : List (MutexEvent × ℚ × String)) :
    ∀ p : MutexPool, p.KeysBelow →
      (p.registerAll xs).tx = p.tx + xs.length
      ∧ (p.registerAll xs).risks.map Prod.fst
          = p.risks.map Prod.fst ++ List.range' p.tx xs.length := by
  induction xs with
  | nil => intro p _; simp [MutexPool.registerAll]
  | cons hd tl ih =>
      intro p hkb
      obtain ⟨e, a, w⟩ := hd
      obtain ⟨hkb2, hkeys, htx⟩ := mutex_makeRisk_step p e a w hkb
      obtain ⟨ihtx, ihkeys⟩ := ih (p.MakeRisk e a w).2 hkb2
      constructor
      · rw [MutexPool.registerAll, ihtx, htx, List.length_cons]
        omega
      · rw [MutexPool.registerAll, ihkeys, hkeys, htx, List.length_cons,
          List.range'_succ]
        simp

lemma ls_registerAll_spec (xs : List (LongShortEvent × ℚ × String)) :
    ∀ p : LongShortPool, p.KeysBelow →
      (p.registerAll xs).tx = p.tx + xs.length
      ∧ (p.registerAll xs).risks.map Prod.fst
          = p.risks.map Prod.fst ++ List.range' p.tx xs.length := by
  induction xs with
  | nil => intro p _; simp [LongShortPool.registerAll]
  | cons hd tl ih =>
      intro p hkb
      obtain ⟨e, a, w⟩ := hd
      obtain ⟨hkb2, hkeys, htx⟩ := ls_makeRisk_step p e a w hkb
      obtain ⟨ihtx, ihkeys⟩ := ih (p.MakeRisk e a w).2 hkb2
      constructor
      · rw [LongShortPool.registerAll, ihtx, htx, List.length_cons]
        omega
      · rw [LongShortPool.registerAll, ihkeys, hkeys, htx, List.length_cons,
          List.range'_succ]
        simp

/-- C9: `MakeRisk` assigns `id = nextId`, stores the stake under that
key, returns it and increments the counter; from an empty pool, any
sequence of registrations yields ids `0, 1, ..., n-1` in order, and the
counter equals the number of stored stakes (both pool kinds). -/
theorem make_risk_id_sequence :
    (∀ (p : MutexPool) (e : MutexEvent) (a : ℚ) (w : String),
        (p.MakeRisk e a w).1 = p.tx
        ∧ (p.MakeRisk e a w).2.tx = p.tx + 1
        ∧ (lookupAssoc p.tx (p.MakeRisk e a w).2.risks).map (fun r => r.tx.id)
            = some p.tx
        ∧ (lookupAssoc p.tx (p.MakeRisk e a w).2.risks).map (fun r => r.tx.amount)
            = some a)
    ∧ (∀ xs : List (MutexEvent × ℚ × String),
        (MutexPool.empty.registerAll xs).tx
            = (MutexPool.empty.registerAll xs).risks.length
        ∧ (MutexPool.empty.registerAll xs).risks.map Prod.fst = List.range xs.length)
    ∧ (∀ (p : LongShortPool) (e : LongShortEvent) (a : ℚ) (w : String),
        (p.MakeRisk e a w).1 = p.tx
        ∧ (p.MakeRisk e a w).2.tx = p.tx + 1
        ∧ (lookupAssoc p.tx (p.MakeRisk e a w).2.risks).map (fun r => r.tx.id)
            = some p.tx
        ∧ (lookupAssoc p.tx (p.MakeRisk e a w).2.risks).map (fun r => r.tx.amount)
            = some a)
    ∧ (∀ xs : List (LongShortEvent × ℚ × String),
        (LongShortPool.empty.registerAll xs).tx
            = (LongShortPool.empty.registerAll xs).risks.length
        ∧ (LongShortPool.empty.registerAll xs).risks.map Prod.fst
            = List.range xs.length) := by
  refine ⟨fun p e a w => ⟨rfl, rfl, ?_, ?_⟩, fun xs => ?_,
    fun p e a w => ⟨rfl, rfl, ?_, ?_⟩, fun xs => ?_⟩
  · simp only [MutexPool.MakeRisk]
    rw [lookupAssoc_insert]
    rfl
  · simp only [MutexPool.MakeRisk]
    rw [lookupAssoc_insert]
    rfl
  · obtain ⟨htx, hkeys⟩ := mutex_registerAll_spec xs MutexPool.empty (by
      intro k hk; simp [MutexPool.empty] at hk)
    have hlen : (MutexPool.empty.registerAll xs).risks.length = xs.length := by
      have := congrArg List.length hkeys
      simpa [MutexPool.empty] using this
    refine ⟨by rw [htx, hlen]; simp [MutexPool.empty], ?_⟩
    rw [hkeys]
    simp [MutexPool.empty, List.range_eq_range']
  · simp only [LongShortPool.MakeRisk]
    rw [lookupAssoc_insert]
    rfl
  · simp only [LongShortPool.MakeRisk]
    rw [lookupAssoc_insert]
    rfl
  · obtain ⟨htx, hkeys⟩ := ls_registerAll_spec xs LongShortPool.empty (by
      intro k hk; simp [LongShortPool.empty] at hk)
    have hlen : (LongShortPool.empty.registerAll xs).risks.length = xs.length := by
      have := congrArg List.length hkeys
      simpa [LongShortPool.empty] using this
    refine ⟨by rw [htx, hlen]; simp [LongShortPool.empty], ?_⟩
    rw [hkeys]
    simp [LongShortPool.empty, List.range_eq_range']

/-- Dividing each summand by a constant divides the sum. -/
lemma sum_map_div {α : Type} (l : List α) (f : α → ℚ) (c : ℚ) :
    (l.map (fun x => f x / c)).sum = (l.map f).sum / c := by
  have hc : l.map (fun x => f x / c) = l.map (fun x => f x * c⁻¹) := by
    apply List.map_congr_left
    intro a _
    rw [div_eq_mul_inv]
  rw [hc, List.sum_map_mul_right, div_eq_mul_inv]

/-- With positive amounts and at least one winner, the total winning
amount of a mutex pool is positive. -/
lemma mutex_twv_pos (p : MutexPool) (level : String)
    (hpos : ∀ tr ∈ p.risks, 0 < tr.2.tx.amount)
    (hany : p.risks.any (fun tr => tr.2.IsWinner level) = true) :
    0 < p.TotalWinningAmount level := by
  have heq : p.TotalWinningAmount level
      = ((p.risks.filter (fun tr => tr.2.IsWinner level)).map
          (fun tr => tr.2.tx.amount)).sum :=
    (mutex_sum_filter p.risks level).symm
  rw [heq]
  rcases List.any_eq_true.mp hany with ⟨tr, htr, hwin⟩
  apply List.sum_pos
  · intro x hx
    rcases List.mem_map.mp hx with ⟨a, ha, rfl⟩
    exact hpos a (List.mem_filter.mp ha).1
  · intro hnil
    have hf : tr ∈ p.risks.filter (fun tr => tr.2.IsWinner level) :=
      List.mem_filter.mpr ⟨htr, hwin⟩
    have hmem := List.mem_map_of_mem (fun tr => tr.2.tx.amount) hf
    rw [hnil] at hmem
    exact absurd hmem (List.not_mem_nil _)

/-- With positive amounts and at least one winner, the total winning
amount of a long-short pool is positive. -/
lemma ls_twv_pos (p : LongShortPool) (level : Int)
    (hpos : ∀ tr ∈ p.risks, 0 < tr.2.tx.amount)
    (hany : p.risks.any (fun tr => tr.2.IsWinner level) = true) :
    0 < p.TotalWinningAmount level := by
  have heq : p.TotalWinningAmount level
      = ((p.risks.filter (fun tr => tr.2.IsWinner level)).map
          (fun tr => tr.2.tx.amount)).sum :=
    (ls_sum_filter p.risks level).symm
  rw [heq]
  rcases List.any_eq_true.mp hany with ⟨tr, htr, hwin⟩
  apply List.sum_pos
  · intro x hx
    rcases List.mem_map.mp hx with ⟨a, ha, rfl⟩
    exact hpos a (List.mem_filter.mp ha).1
  · intro hnil
    have hf : tr ∈ p.risks.filter (fun tr => tr.2.IsWinner level) :=
      List.mem_filter.mpr ⟨htr, hwin⟩
    have hmem := List.mem_map_of_mem (fun tr => tr.2.tx.amount) hf
    rw [hnil] at hmem
    exact absurd hmem (List.not_mem_nil _)

/-- C10: with positive stake amounts and at least one winner, the
`winnings_share` fields of the settled winners sum to 1 (both pools),
and so do the `inverse_distance_to_pin_normalised` fields of the
directional settlement. -/
theorem shares_sum_to_one (mp : MutexPool) (ml : String)
    (lp : LongShortPool) (ll : Int)
    (hmpos : ∀ tr ∈ mp.risks, 0 < tr.2.tx.amount)
    (hmany : mp.risks.any (fun tr => tr.2.IsWinner ml) = true)
    (hlpos : ∀ tr ∈ lp.risks, 0 < tr.2.tx.amount)
    (hlany : lp.risks.any (fun tr => tr.2.IsWinner ll) = true) :
    ((mp.MakeWinningRisks ml).map (fun tr => tr.2.winnings_share)).sum = 1
    ∧ ((lp.MakeWinningRisks ll).map (fun tr => tr.2.winnings_share)).sum = 1
    ∧ ((lp.MakeWinningRisks ll).map
        (fun tr => tr.2.inverse_distance_to_pin_normalised)).sum = 1 := by
  have hmw := (mutex_twv_pos mp ml hmpos hmany).ne'
  have hlw := (ls_twv_pos lp ll hlpos hlany).ne'
  have htid := (ls_tid_pos lp ll hlany).ne'
  refine ⟨?_, ?_, ?_⟩
  · have hmap : ((mp.MakeWinningRisks ml).map (fun tr => tr.2.winnings_share)).sum
        = ((mp.risks.filter (fun tr => tr.2.IsWinner ml)).map
            (fun tr => tr.2.tx.amount / mp.TotalWinningAmount ml)).sum := by
      simp [MutexPool.MakeWinningRisks, List.map_map, Function.comp_def]
    rw [hmap, sum_map_div, mutex_sum_filter]
    exact div_self hmw
  · have hmap : ((lp.MakeWinningRisks ll).map (fun tr => tr.2.winnings_share)).sum
        = ((lp.risks.filter (fun tr => tr.2.IsWinner ll)).map
            (fun tr => tr.2.tx.amount / lp.TotalWinningAmount ll)).sum := by
      simp [LongShortPool.MakeWinningRisks, LongShortPool.pass1, List.map_map,
        Function.comp_def]
    rw [hmap, sum_map_div, ls_sum_filter]
    exact div_self hlw
  · have hmap : ((lp.MakeWinningRisks ll).map
          (fun tr => tr.2.inverse_distance_to_pin_normalised)).sum
        = ((lp.risks.filter (fun tr => tr.2.IsWinner ll)).map
            (fun tr => tr.2.WinningInverseDistance ll
              / lp.totalInverseDistance ll)).sum := by
      simp [LongShortPool.MakeWinningRisks, LongShortPool.pass1, List.map_map,
        Function.comp_def]
    rw [hmap, sum_map_div, ← ls_tid_eq]
    exact div_self htid

/-- Witness for C10 at the concrete pools of `main`. -/
theorem shares_sum_to_one_witness :
    ((∀ tr ∈ mutexScenario.risks, 0 < tr.2.tx.amount)
      ∧ mutexScenario.risks.any (fun tr => tr.2.IsWinner "default") = true
      ∧ (∀ tr ∈ lsScenario.risks, 0 < tr.2.tx.amount)
      ∧ lsScenario.risks.any (fun tr => tr.2.IsWinner 56) = true)
    ∧ (((mutexScenario.MakeWinningRisks "default").map
          (fun tr => tr.2.winnings_share)).sum = 1
      ∧ ((lsScenario.MakeWinningRisks 56).map
          (fun tr => tr.2.winnings_share)).sum = 1
      ∧ ((lsScenario.MakeWinningRisks 56).map
          (fun tr => tr.2.inverse_distance_to_pin_normalised)).sum = 1) := by
  have hmpos : ∀ tr ∈ mutexScenario.risks, 0 < tr.2.tx.amount := by
    intro tr htr
    fin_cases htr <;> norm_num
  have hmany : mutexScenario.risks.any (fun tr => tr.2.IsWinner "default") = true := by
    decide
  have hlpos : ∀ tr ∈ lsScenario.risks, 0 < tr.2.tx.amount := by
    intro tr htr
    fin_cases htr <;> norm_num
  have hlany : lsScenario.risks.any (fun tr => tr.2.IsWinner 56) = true := by decide
  exact ⟨⟨hmpos, hmany, hlpos, hlany⟩,
    shares_sum_to_one mutexScenario "default" lsScenario 56 hmpos hmany hlpos hlany⟩

end TP
